import Mathlib

/-!
Shallow embedding of the retrieval-augmented book recommendation engine
(`book_chatbot.py`): corpus loading, batched ingestion with a completion
marker, context formatting, the per-turn retrieval/generation step and the
conversation session loop.  External collaborators (embedding provider,
vector index, generative model) are modelled as oracle functions; vector
payloads are abstract (`V`), ratings are rationals, and Python exceptions
are `Except String`.
-/

namespace BookChatbot

/-- The task type tag passed to the embedding provider
(`"RETRIEVAL_DOCUMENT"` during ingestion, `"RETRIEVAL_QUERY"` per turn). -/
inductive TaskType where
  | retrievalDocument
  | retrievalQuery
deriving DecidableEq, Repr

/-- A raw CSV row after pandas parsing: the three required columns may be
missing (`none` = NaN), the rating is carried through. -/
structure Row where
  bookID : Option String
  title : Option String
  authors : Option String
  average_rating : Rat
deriving DecidableEq, Repr

/-- A prepared record, as produced by `_load_data`: required fields present,
`description_for_embedding` the derived embedding text. -/
structure Record where
  bookID : String
  title : String
  authors : String
  average_rating : Rat
  description_for_embedding : String
deriving DecidableEq, Repr

/-- The vector dictionary built in `upsert_data`: id, embedding values and
the metadata sent to the index. -/
structure Entry (V : Type) where
  id : String
  values : V
  title : String
  authors : String
  average_rating : Rat
deriving DecidableEq, Repr

/-- Observable calls made to the external providers during a run. -/
inductive Event (V : Type) where
  | embedCall (texts : List String) (task : TaskType)
  | upsertCall (entries : List (Entry V))
  | generateCall (prompt : String)
deriving DecidableEq, Repr

/-- `config.rows_to_process`. -/
def rowsToProcess : Nat := 100

/-- The fixed ingestion batch size of `upsert_data`. -/
def batchSize : Nat := 50

/-- `df.dropna(subset=['bookID', 'title', 'authors'])` keeps a row iff all
three required columns are present. -/
def isValidRow (r : Row) : Bool :=
  r.bookID.isSome && r.title.isSome && r.authors.isSome

/-- Builds the prepared record from a (valid) row: the derived
`description_for_embedding` template and the id coerced to string. -/
def mkRecord (r : Row) : Record :=
  let t := r.title.getD ""
  let a := r.authors.getD ""
  ⟨r.bookID.getD "", t, a, r.average_rating, "Title: " ++ t ++ "; Authors: " ++ a⟩

/-- `_load_data` after the file has been read: drop rows with a missing
required column, truncate to the row limit, derive the embedding text. -/
def loadData (rows : List Row) (limit : Nat) : List Record :=
  ((rows.filter isValidRow).take limit).map mkRecord

/-- `data[i:i+batch_size]` slicing of `range(0, len(data), batch_size)`,
written with explicit fuel (the list length bounds the number of slices). -/
def chunksAux (n : Nat) : Nat → List α → List (List α)
  | _, [] => []
  | 0, _ :: _ => []
  | fuel + 1, x :: xs => ((x :: xs).take n) :: chunksAux n fuel ((x :: xs).drop n)

/-- The batches of `upsert_data`, in corpus order. -/
def chunks (n : Nat) (l : List α) : List (List α) :=
  chunksAux n l.length l

/-- The embedding texts of one batch
(`batch_df['description_for_embedding'].tolist()`). -/
def batchTexts (batch : List Record) : List String :=
  batch.map Record.description_for_embedding

/-- One vector dictionary of the upsert loop. -/
def mkEntry (r : Record) (v : V) : Entry V :=
  ⟨r.bookID, v, r.title, r.authors, r.average_rating⟩

/-- The vector-building loop of `upsert_data`: row `k` of the batch reads
`embeddings[len(vectors)] = embeddings[k]`; exhausting the embedding list
early is a Python `IndexError` (`none`); extra embeddings are never read. -/
def buildVectors : List Record → List V → Option (List (Entry V))
  | [], _ => some []
  | _ :: _, [] => none
  | r :: rs, e :: es =>
    match buildVectors rs es with
    | none => none
    | some vs => some (mkEntry r e :: vs)

/-- The message of a Python `IndexError` on list indexing. -/
def indexErrorMsg : String := "IndexError: list index out of range"

/-- The external services used by ingestion: the embedding provider and the
vector index upsert, both fallible; `σ` is the index state. -/
structure IngestOracles (V σ : Type) where
  embed : List String → TaskType → Except String (List V)
  upsert : σ → List (Entry V) → Except String σ

/-- One iteration of the `upsert_data` loop: embed the whole batch with one
provider call, pair embeddings with records positionally, upsert the batch.
Any raised exception propagates. -/
def processBatch (or : IngestOracles V σ) (st : σ) (batch : List Record) :
    Except String (σ × List (Event V)) :=
  match or.embed (batchTexts batch) TaskType.retrievalDocument with
  | Except.error e => Except.error e
  | Except.ok embeddings =>
    match buildVectors batch embeddings with
    | none => Except.error indexErrorMsg
    | some vectors =>
      match or.upsert st vectors with
      | Except.error e => Except.error e
      | Except.ok st2 =>
        Except.ok (st2, [Event.embedCall (batchTexts batch) TaskType.retrievalDocument,
                         Event.upsertCall vectors])

/-- The batch loop of `upsert_data` over an explicit batch list. -/
def upsertGo (or : IngestOracles V σ) : List (List Record) → σ →
    Except String (σ × List (Event V))
  | [], st => Except.ok (st, [])
  | b :: bs, st =>
    match processBatch or st b with
    | Except.error e => Except.error e
    | Except.ok p =>
      match upsertGo or bs p.1 with
      | Except.error e => Except.error e
      | Except.ok q => Except.ok (q.1, p.2 ++ q.2)

/-- `PineconeService.upsert_data`: process the data in fixed-size batches in
corpus order. -/
def upsertData (or : IngestOracles V σ) (st : σ) (data : List Record) :
    Except String (σ × List (Event V)) :=
  upsertGo or (chunks batchSize data) st

/-- Outcome of `BookChatbot.setup`: the index state, whether the completion
marker file exists afterwards, and the provider calls made. -/
structure SetupOut (V σ : Type) where
  index : σ
  marker : Bool
  events : List (Event V)
deriving DecidableEq, Repr

/-- `BookChatbot.setup`: if the marker file exists, do nothing; otherwise
run the full ingestion and only then write the marker. An exception from
ingestion propagates before the marker write is reached. -/
def setup (or : IngestOracles V σ) (marker : Bool) (st : σ)
    (data : List Record) : Except String (SetupOut V σ) :=
  if marker then Except.ok ⟨st, marker, []⟩
  else
    match upsertData or st data with
    | Except.error e => Except.error e
    | Except.ok p => Except.ok ⟨p.1, true, p.2⟩

/-- The marker file state after a `setup` run: unchanged when the run threw
(the write is never reached), as recorded in the outcome otherwise. -/
def markerAfter (marker : Bool) (r : Except String (SetupOut V σ)) : Bool :=
  match r with
  | Except.ok o => o.marker
  | Except.error _ => marker

/-- One retrieved match as the query returns it: a metadata dictionary whose
fields may be absent (`.get(key, 'N/A')` in `_format_context`); the rating
is kept in its rendered form since it is only interpolated into text. -/
structure RMatch where
  title : Option String
  authors : Option String
  average_rating : Option String
deriving DecidableEq, Repr

/-- The opening line of the context block built by `_format_context`. -/
def contextHeader : String :=
  "Based on the user\x27s request, here are some potentially relevant books from our database:\n\n"

/-- The lines appended for the match at (0-based) position `i`: the result is
numbered `i + 1`. -/
def matchBlock (i : Nat) (m : RMatch) : String :=
  "Result " ++ toString (i + 1) ++ ":\n" ++
  "- Title: " ++ m.title.getD "N/A" ++ "\n" ++
  "- Authors: " ++ m.authors.getD "N/A" ++ "\n" ++
  "- Average Rating: " ++ m.average_rating.getD "N/A" ++ "\n\n"

/-- The `for i, match in enumerate(matches)` accumulation of
`_format_context`. -/
def formatContextAux : Nat → String → List RMatch → String
  | _, acc, [] => acc
  | i, acc, m :: ms => formatContextAux (i + 1) (acc ++ matchBlock i m) ms

/-- `BookChatbot._format_context`. -/
def formatContext (ms : List RMatch) : String :=
  formatContextAux 0 contextHeader ms

/-- Concatenation of a list of strings, in order. -/
def strConcat : List String → String
  | [] => ""
  | s :: ss => s ++ strConcat ss

/-- The prompt built in `BookChatbot.run` from the context block and the
verbatim user query. -/
def promptFor (q : String) (ms : List RMatch) : String :=
  "**Context - Relevant Books:**\n" ++ formatContext ms ++ "\n\n" ++
  "**User\x27s Request:** \"" ++ q ++ "\"\n\n" ++
  "**Your Task:**\n" ++
  "You are a friendly and helpful bookstore assistant. Based *only* on the book results provided in the context, give a conversational recommendation to the user.\n\n" ++
  "**Formatting Rules:**\n" ++
  "1. Start with a friendly, one-sentence introduction.\n" ++
  "2. Present the recommended books as a bulleted list (using \x27*\x27 or \x27-\x27).\n" ++
  "3. For each book in the list, make the title **bold**.\n" ++
  "4. After the title, briefly explain (in 1-2 sentences) why it fits the user\x27s request.\n" ++
  "5. Do not invent books or suggest any that are not in the context."

/-- The fallback text of `GeminiService.generate_response` with the caught
exception text interpolated. -/
def fallbackReply (e : String) : String :=
  "Sorry, I encountered an error while generating a response: " ++ e

/-- The fixed reply printed when retrieval returns no matches. -/
def noResultsReply : String :=
  "I\x27m sorry, I couldn\x27t find any relevant books. Please try a different query."

/-- The reply printed on a termination token. -/
def goodbyeReply : String := "Goodbye!"

/-- The external services used per conversational turn: the embedding
provider, the index query (returning matches with metadata), and the raw
generative model, which may raise. -/
structure ChatOracles (V : Type) where
  embed : List String → TaskType → Except String (List V)
  query : V → List RMatch
  genRaw : String → Except String String

/-- `GeminiService.generate_response`: the generative call wrapped in a
catch-all that converts any exception into the fallback text. -/
def generateResponse (genRaw : String → Except String String)
    (prompt : String) : String :=
  match genRaw prompt with
  | Except.ok t => t
  | Except.error e => fallbackReply e

/-- Python `str.lower()`: lower-case every character. -/
def lower (s : String) : String :=
  String.mk (s.data.map Char.toLower)

/-- `user_query.lower() in ['quit', 'exit']`. -/
def isTermination (q : String) : Bool :=
  lower q == "quit" || lower q == "exit"

/-- The body of one loop iteration of `BookChatbot.run` for a
non-termination input: embed the query (taking element `[0]`, an
`IndexError` when the provider returns nothing), query the index, either
short-circuit on zero matches or build the prompt and generate. An
exception from the embedding call propagates (nothing catches it). -/
def turn (or : ChatOracles V) (q : String) :
    Except String (String × List (Event V)) :=
  match or.embed [q] TaskType.retrievalQuery with
  | Except.error e => Except.error e
  | Except.ok [] => Except.error indexErrorMsg
  | Except.ok (v :: _) =>
    match or.query v with
    | [] => Except.ok (noResultsReply, [Event.embedCall [q] TaskType.retrievalQuery])
    | m :: ms =>
      Except.ok (generateResponse or.genRaw (promptFor q (m :: ms)),
                 [Event.embedCall [q] TaskType.retrievalQuery,
                  Event.generateCall (promptFor q (m :: ms))])

/-- Outcome of the conversation loop over a list of pending inputs: the bot
replies in order, the provider calls made, and whether the loop reached the
terminal state through a termination token. -/
structure SessionOut (V : Type) where
  replies : List String
  events : List (Event V)
  ended : Bool
deriving DecidableEq, Repr

/-- The `while True` loop of `BookChatbot.run`, driven by the finite list of
inputs the user will type: a termination token ends the session at once
(before any provider call for that input); otherwise the turn runs and the
loop continues; a turn exception propagates out of the loop. -/
def session (or : ChatOracles V) : List String → Except String (SessionOut V)
  | [] => Except.ok ⟨[], [], false⟩
  | q :: qs =>
    if isTermination q then Except.ok ⟨[goodbyeReply], [], true⟩
    else
      match turn or q with
      | Except.error e => Except.error e
      | Except.ok t =>
        match session or qs with
        | Except.error e => Except.error e
        | Except.ok rest =>
          Except.ok ⟨t.1 :: rest.replies, t.2 ++ rest.events, rest.ended⟩

/-- The observable startup steps of `__main__`: construct the chatbot
(`_load_data`, then `get_or_create_index`) and call `setup` (the marker
check). A missing corpus file makes `_load_data` print and `exit()`. -/
inductive StartupStep where
  | corpusLoad
  | fatalExit
  | indexProvision
  | markerCheck
  | ingestion (skipped : Bool)
deriving DecidableEq, Repr

/-- The process environment at startup: the corpus file content (`none` =
file missing), the marker file state, the provisioned index handle and the
ingestion services. -/
structure StartupEnv (V σ : Type) where
  corpus : Option (List Row)
  marker : Bool
  index0 : σ
  ingest : IngestOracles V σ

/-- The startup sequence of `__main__`: `BookChatbot(config)` loads the
corpus (exiting fatally when the file is missing, before the index or the
marker is touched) and provisions the index; `chatbot.setup()` then consults
the marker. -/
def startup (env : StartupEnv V σ) :
    List StartupStep × Option (Except String (SetupOut V σ)) :=
  match env.corpus with
  | none => ([StartupStep.corpusLoad, StartupStep.fatalExit], none)
  | some rows =>
    let records := loadData rows rowsToProcess
    ([StartupStep.corpusLoad, StartupStep.indexProvision,
      StartupStep.markerCheck, StartupStep.ingestion env.marker],
     some (setup env.ingest env.marker env.index0 records))

/-- The embedding texts of an embed-call event, `none` for other events. -/
def embedTextsOf : Event V → Option (List String)
  | Event.embedCall ts _ => some ts
  | Event.upsertCall _ => none
  | Event.generateCall _ => none

/-! Concrete fixtures used to exercise the model at explicit inputs. -/

/-- A prepared record as `_load_data` would produce it. -/
def rec1 : Record := ⟨"1", "Book A", "Alice", 4, "Title: Book A; Authors: Alice"⟩

/-- Ingestion services that always succeed: every text embeds to `7`, the
index accumulates the upserted entries. -/
def demoOr : IngestOracles Nat (List (Entry Nat)) :=
  ⟨fun ts _ => Except.ok (List.replicate ts.length 7),
   fun s es => Except.ok (s ++ es)⟩

/-- Ingestion services whose embedding call always raises. -/
def failOr : IngestOracles Nat (List (Entry Nat)) :=
  ⟨fun _ _ => Except.error "boom",
   fun s es => Except.ok (s ++ es)⟩

/-- Ingestion services returning two embeddings regardless of the input
count. -/
def surplusOr : IngestOracles Nat (List (Entry Nat)) :=
  ⟨fun _ _ => Except.ok [10, 20],
   fun s es => Except.ok (s ++ es)⟩

/-- Ingestion services returning an empty embedding list. -/
def shortOr : IngestOracles Nat (List (Entry Nat)) :=
  ⟨fun _ _ => Except.ok [],
   fun s es => Except.ok (s ++ es)⟩

/-- The outcome of a first successful `setup` run over `[rec1]` with
`demoOr` starting from an empty index. -/
def demoRun : SetupOut Nat (List (Entry Nat)) :=
  ⟨[mkEntry rec1 7], true,
   [Event.embedCall [rec1.description_for_embedding] TaskType.retrievalDocument,
    Event.upsertCall [mkEntry rec1 7]]⟩

/-- A retrieved match with full metadata. -/
def demoMatch : RMatch := ⟨some "A", some "Alice", some "4.2"⟩

/-- A second retrieved match. -/
def demoMatch2 : RMatch := ⟨some "B", some "Bob", some "3.9"⟩

/-- Chat services whose generative call always raises. -/
def chatOrGen : ChatOracles Nat :=
  ⟨fun _ _ => Except.ok [0],
   fun _ => [demoMatch, demoMatch2],
   fun _ => Except.error "boom"⟩

/-- Chat services whose retrieval always returns zero matches. -/
def chatOrEmpty : ChatOracles Nat :=
  ⟨fun _ _ => Except.ok [0],
   fun _ => [],
   fun _ => Except.ok "text"⟩

/-- Valid corpus rows and one row with a missing `authors` column. -/
def rowA : Row := ⟨some "1", some "Book A", some "Alice", 4⟩

/-- Second valid corpus row. -/
def rowB : Row := ⟨some "2", some "Book B", some "Bob", 3⟩

/-- Third valid corpus row. -/
def rowC : Row := ⟨some "3", some "Book C", some "Cara", 5⟩

/-- A corpus row whose `authors` column is missing. -/
def rowBad : Row := ⟨some "4", some "Book D", none, 2⟩

/-- The loader scenario corpus: three valid rows plus one missing
`authors`. -/
def scenarioRows : List Row := [rowA, rowB, rowC, rowBad]

/-- A startup environment whose corpus file is missing. -/
def envMissing : StartupEnv Nat (List (Entry Nat)) := ⟨none, false, [], demoOr⟩

/-- A startup environment with a readable corpus and the marker present. -/
def envReady : StartupEnv Nat (List (Entry Nat)) :=
  ⟨some scenarioRows, true, [], demoOr⟩

/-! ## Helper lemmas -/

/-- When the marker is absent, `setup` is exactly one full ingestion run
followed by the marker write. -/
theorem setup_no_marker (or : IngestOracles V σ) (st : σ) (data : List Record) :
    setup or false st data =
      Except.map (fun p => (⟨p.1, true, p.2⟩ : SetupOut V σ))
        (upsertData or st data) := by
  unfold setup
  cases upsertData or st data <;> rfl

/-- The vector-building loop pairs records and embeddings positionally when
enough embeddings are returned. -/
theorem buildVectors_eq_zipWith :
    ∀ (rs : List Record) (es : List V), rs.length ≤ es.length →
      buildVectors rs es = some (List.zipWith mkEntry rs es)
  | [], _, _ => rfl
  | _ :: _, [], h => absurd h (by simp)
  | r :: rs, e :: es, h => by
    have ih := buildVectors_eq_zipWith rs es (by simpa using h)
    simp [buildVectors, ih]

/-- The vector-building loop raises `IndexError` when the provider returned
fewer embeddings than records. -/
theorem buildVectors_short :
    ∀ (rs : List Record) (es : List V), es.length < rs.length →
      buildVectors rs es = none
  | [], _, h => absurd h (by simp)
  | _ :: _, [], _ => rfl
  | r :: rs, e :: es, h => by
    have ih := buildVectors_short rs es (by simpa using h)
    simp [buildVectors, ih]

/-- Positional correspondence: entry `i` stores the `i`-th returned
embedding. -/
theorem zipWith_mkEntry_values :
    ∀ (rs : List Record) (es : List V), es.length = rs.length →
      (List.zipWith mkEntry rs es).map Entry.values = es
  | [], [], _ => rfl
  | [], _ :: _, h => absurd h (by simp)
  | _ :: _, [], h => absurd h (by simp)
  | r :: rs, e :: es, h => by
    have ih := zipWith_mkEntry_values rs es (by simpa using h)
    simp [ih, mkEntry]

/-- Entry `i` carries the id of record `i` of the batch. -/
theorem zipWith_mkEntry_ids :
    ∀ (rs : List Record) (es : List V), rs.length ≤ es.length →
      (List.zipWith mkEntry rs es).map Entry.id = rs.map Record.bookID
  | [], _, _ => rfl
  | _ :: _, [], h => absurd h (by simp)
  | r :: rs, e :: es, h => by
    have ih := zipWith_mkEntry_ids rs es (by simpa using h)
    simp [ih, mkEntry]

/-- A successful batch records exactly one embed call (on the batch texts)
followed by one upsert call. -/
theorem processBatch_ok_shape (or : IngestOracles V σ) (st : σ)
    (b : List Record) (p : σ × List (Event V))
    (h : processBatch or st b = Except.ok p) :
    ∃ vs, p.2 = [Event.embedCall (batchTexts b) TaskType.retrievalDocument,
                 Event.upsertCall vs] := by
  unfold processBatch at h
  cases hse : or.embed (batchTexts b) TaskType.retrievalDocument with
  | error e => rw [hse] at h; cases h
  | ok es =>
    rw [hse] at h
    dsimp only at h
    cases hbv : buildVectors b es with
    | none => rw [hbv] at h; cases h
    | some vs =>
      rw [hbv] at h
      dsimp only at h
      cases hup : or.upsert st vs with
      | error e => rw [hup] at h; cases h
      | ok st2 => rw [hup] at h; cases h; exact ⟨vs, rfl⟩

/-- Over any batch list, a successful run makes exactly one embed call per
batch, on that batch's texts, in order. -/
theorem upsertGo_embedCalls (or : IngestOracles V σ) (bs : List (List Record)) :
    ∀ (stA stB : σ) (evs : List (Event V)),
      upsertGo or bs stA = Except.ok (stB, evs) →
      evs.filterMap embedTextsOf = bs.map batchTexts := by
  induction bs with
  | nil =>
    intro stA stB evs h
    simp only [upsertGo] at h
    cases h
    rfl
  | cons b bs ih =>
    intro stA stB evs h
    simp only [upsertGo] at h
    cases hpb : processBatch or stA b with
    | error e => rw [hpb] at h; cases h
    | ok p =>
      rw [hpb] at h
      dsimp only at h
      cases hgo : upsertGo or bs p.1 with
      | error e => rw [hgo] at h; cases h
      | ok qq =>
        rw [hgo] at h
        dsimp only at h
        cases h
        obtain ⟨vs, hvs⟩ := processBatch_ok_shape or stA b p hpb
        have hq := ih p.1 qq.1 qq.2 (by rw [hgo])
        rw [hvs]
        simp [embedTextsOf, hq]

/-! ## Claim theorems -/

/-- C1.  Idempotence of ingestion: when the completion marker already
exists, `setup` makes zero embedding and zero upsert calls (empty event
trace) and leaves the vector index unchanged; hence after any successful
run (which leaves the marker set), a second run is a no-op, so running the
pipeline twice equals running it once. -/
theorem ingestion_idempotent (or : IngestOracles V σ) (st : σ)
    (data : List Record) (r : SetupOut V σ)
    (h : setup or false st data = Except.ok r) :
    setup or true st data = Except.ok ⟨st, true, []⟩ ∧
    setup or r.marker r.index data = Except.ok ⟨r.index, true, []⟩ := by
  refine ⟨rfl, ?_⟩
  have hm : r.marker = true := by
    rw [setup_no_marker] at h
    cases hud : upsertData or st data with
    | error e => rw [hud] at h; cases h
    | ok p => rw [hud] at h; cases h; rfl
  rw [hm]
  rfl

/-- Witness for C1 at a concrete one-record corpus and succeeding
services. -/
theorem ingestion_idempotent_witness :
    setup demoOr true ([] : List (Entry Nat)) [rec1] = Except.ok ⟨[], true, []⟩ ∧
    setup demoOr demoRun.marker demoRun.index [rec1] =
      Except.ok ⟨demoRun.index, true, []⟩ :=
  ingestion_idempotent demoOr [] [rec1] demoRun rfl

/-- C2.  Marker atomicity on failure: when any batch of the run raises, the
exception propagates out of `setup` before the marker write, the marker
remains absent afterwards, and the next run (seeing the absent marker)
performs the full ingestion over all records again, from record 0. -/
theorem marker_atomicity (or : IngestOracles V σ) (st : σ)
    (data : List Record) (e : String)
    (h : upsertData or st data = Except.error e) :
    setup or false st data = Except.error e ∧
    markerAfter false (setup or false st data) = false ∧
    ∀ (or2 : IngestOracles V σ) (st2 : σ),
      setup or2 (markerAfter false (setup or false st data)) st2 data =
        Except.map (fun p => (⟨p.1, true, p.2⟩ : SetupOut V σ))
          (upsertData or2 st2 data) := by
  have h1 : setup or false st data = Except.error e := by
    rw [setup_no_marker, h]; rfl
  refine ⟨h1, ?_, ?_⟩
  · rw [h1]; rfl
  · intro or2 st2
    rw [h1]
    exact setup_no_marker or2 st2 data

/-- Witness for C2: the embedding of the only batch raises, the marker
stays absent, and the rerun is a full ingestion of the whole corpus. -/
theorem marker_atomicity_witness :
    setup failOr false ([] : List (Entry Nat)) [rec1] = Except.error "boom" ∧
    markerAfter false (setup failOr false ([] : List (Entry Nat)) [rec1]) = false ∧
    setup demoOr (markerAfter false (setup failOr false ([] : List (Entry Nat)) [rec1]))
        [] [rec1] =
      Except.map (fun p => (⟨p.1, true, p.2⟩ : SetupOut Nat (List (Entry Nat))))
        (upsertData demoOr ([] : List (Entry Nat)) [rec1]) := by
  have h := marker_atomicity failOr ([] : List (Entry Nat)) [rec1] "boom" rfl
  exact ⟨h.1, h.2.1, h.2.2 demoOr []⟩

/-- C3.  Batch positional correspondence: a batch is embedded with exactly
one provider call on the batch's embedding texts; entry `i` of the upserted
batch stores embedding `i` and the id of record `i`; and over a whole run
the embed calls are exactly one per batch, on the batch texts, in corpus
order. -/
theorem batch_embedding_correspondence (or : IngestOracles V σ) (st st2 : σ)
    (batch : List Record) (es : List V)
    (hlen : es.length = batch.length)
    (hemb : or.embed (batchTexts batch) TaskType.retrievalDocument = Except.ok es)
    (hup : or.upsert st (List.zipWith mkEntry batch es) = Except.ok st2) :
    processBatch or st batch =
      Except.ok (st2,
        [Event.embedCall (batchTexts batch) TaskType.retrievalDocument,
         Event.upsertCall (List.zipWith mkEntry batch es)]) ∧
    (List.zipWith mkEntry batch es).map Entry.values = es ∧
    (List.zipWith mkEntry batch es).map Entry.id = batch.map Record.bookID ∧
    ∀ (data : List Record) (stA stB : σ) (evs : List (Event V)),
      upsertData or stA data = Except.ok (stB, evs) →
      evs.filterMap embedTextsOf = (chunks batchSize data).map batchTexts := by
  have hle : batch.length ≤ es.length := hlen.ge
  refine ⟨?_, zipWith_mkEntry_values batch es hlen,
          zipWith_mkEntry_ids batch es hle, ?_⟩
  · unfold processBatch
    rw [hemb]
    dsimp only
    rw [buildVectors_eq_zipWith batch es hle]
    dsimp only
    rw [hup]
  · intro data stA stB evs h
    exact upsertGo_embedCalls or (chunks batchSize data) stA stB evs h

/-- Witness for C3 at a one-record batch whose embedding list has the same
length. -/
theorem batch_embedding_correspondence_witness :
    processBatch demoOr ([] : List (Entry Nat)) [rec1] =
      Except.ok ([] ++ List.zipWith mkEntry [rec1] [7],
        [Event.embedCall (batchTexts [rec1]) TaskType.retrievalDocument,
         Event.upsertCall (List.zipWith mkEntry [rec1] [7])]) ∧
    (List.zipWith mkEntry [rec1] [7]).map Entry.values = [7] ∧
    (List.zipWith mkEntry [rec1] [7]).map Entry.id = [rec1].map Record.bookID ∧
    (upsertData demoOr ([] : List (Entry Nat)) [rec1] =
        Except.ok (demoRun.index, demoRun.events) →
      demoRun.events.filterMap embedTextsOf =
        (chunks batchSize [rec1]).map batchTexts) := by
  have h := batch_embedding_correspondence demoOr ([] : List (Entry Nat))
    ([] ++ List.zipWith mkEntry [rec1] [7]) [rec1] [7] rfl rfl rfl
  exact ⟨h.1, h.2.1, h.2.2.1, h.2.2.2 [rec1] [] demoRun.index demoRun.events⟩

/-- C4 counterexample: the claim says a provider returning MORE embeddings
than input texts makes the batch fail; here the provider returns two
embeddings for a single text and the batch nevertheless succeeds and is
upserted (the surplus embedding is silently ignored). -/
theorem embed_surplus_accepted_cex :
    surplusOr.embed (batchTexts [rec1]) TaskType.retrievalDocument =
      Except.ok [10, 20] ∧
    (batchTexts [rec1]).length = 1 ∧
    processBatch surplusOr ([] : List (Entry Nat)) [rec1] =
      Except.ok ([mkEntry rec1 10],
        [Event.embedCall (batchTexts [rec1]) TaskType.retrievalDocument,
         Event.upsertCall [mkEntry rec1 10]]) :=
  ⟨rfl, rfl, rfl⟩

/-- C4 as amended: a provider returning FEWER embeddings than texts makes
the batch fail with an `IndexError` (for every upsert behaviour, so nothing
is upserted for that batch); a provider returning MORE embeddings is
accepted silently, the batch upserting the first `len(texts)` embeddings
and ignoring the surplus. -/
theorem embed_mismatch_behavior (or : IngestOracles V σ) (st : σ)
    (batch : List Record) (es : List V)
    (hemb : or.embed (batchTexts batch) TaskType.retrievalDocument = Except.ok es) :
    (es.length < batch.length →
      processBatch or st batch = Except.error indexErrorMsg) ∧
    (batch.length ≤ es.length →
      processBatch or st batch =
        Except.map
          (fun st2 => (st2,
            [Event.embedCall (batchTexts batch) TaskType.retrievalDocument,
             Event.upsertCall (List.zipWith mkEntry batch es)]))
          (or.upsert st (List.zipWith mkEntry batch es))) := by
  constructor
  · intro hlt
    unfold processBatch
    rw [hemb]
    dsimp only
    rw [buildVectors_short batch es hlt]
  · intro hle
    unfold processBatch
    rw [hemb]
    dsimp only
    rw [buildVectors_eq_zipWith batch es hle]
    dsimp only
    cases or.upsert st (List.zipWith mkEntry batch es) <;> rfl

/-- Witness for the amended C4: an empty embedding list for a one-record
batch raises `IndexError`, and a surplus list is accepted. -/
theorem embed_mismatch_behavior_witness :
    processBatch shortOr ([] : List (Entry Nat)) [rec1] =
      Except.error indexErrorMsg ∧
    processBatch surplusOr ([] : List (Entry Nat)) [rec1] =
      Except.map
        (fun st2 => (st2,
          [Event.embedCall (batchTexts [rec1]) TaskType.retrievalDocument,
           Event.upsertCall (List.zipWith mkEntry [rec1] [10, 20])]))
        (surplusOr.upsert [] (List.zipWith mkEntry [rec1] [10, 20])) := by
  have h1 := embed_mismatch_behavior shortOr ([] : List (Entry Nat)) [rec1] [] rfl
  have h2 := embed_mismatch_behavior surplusOr ([] : List (Entry Nat)) [rec1] [10, 20] rfl
  exact ⟨h1.1 (by decide), h2.2 (by decide)⟩

/-- The context accumulation appends, to any accumulator, one block per
match in list order, numbering on from `i`. -/
theorem formatContextAux_eq (ms : List RMatch) : ∀ (i : Nat) (acc : String),
    formatContextAux i acc ms =
      acc ++ strConcat ((ms.enumFrom i).map fun p => matchBlock p.1 p.2) := by
  induction ms with
  | nil => intro i acc; simp [formatContextAux, strConcat]
  | cons m ms ih =>
    intro i acc
    simp only [formatContextAux, List.enumFrom_cons, List.map_cons, strConcat, ih,
      String.append_assoc]

/-- Every successful turn opens its trace with the query-mode embed call on
the single-element text list of the utterance. -/
theorem turn_ok_shape (or : ChatOracles V) (q : String)
    (t : String × List (Event V)) (h : turn or q = Except.ok t) :
    ∃ tail, t.2 = Event.embedCall [q] TaskType.retrievalQuery :: tail := by
  unfold turn at h
  cases hse : or.embed [q] TaskType.retrievalQuery with
  | error e => rw [hse] at h; cases h
  | ok l =>
    rw [hse] at h
    cases l with
    | nil => cases h
    | cons v vs =>
      dsimp only at h
      cases hq : or.query v with
      | nil => rw [hq] at h; cases h; exact ⟨[], rfl⟩
      | cons m ms =>
        rw [hq] at h
        dsimp only at h
        cases h
        exact ⟨[Event.generateCall (promptFor q (m :: ms))], rfl⟩

/-- C5.  Empty-retrieval short-circuit: when the index query returns zero
matches, the turn replies with the fixed no-results text and the trace
holds only the embed call — in particular no generate call. -/
theorem empty_retrieval_short_circuit (or : ChatOracles V) (q : String)
    (v : V) (vs : List V)
    (hemb : or.embed [q] TaskType.retrievalQuery = Except.ok (v :: vs))
    (hq : or.query v = []) :
    turn or q = Except.ok (noResultsReply,
      [Event.embedCall [q] TaskType.retrievalQuery]) ∧
    ∀ (p : String),
      Event.generateCall p ∉ ([Event.embedCall [q] TaskType.retrievalQuery] :
        List (Event V)) := by
  constructor
  · unfold turn
    rw [hemb]
    dsimp only
    rw [hq]
  · intro p
    simp

/-- Witness for C5 with a retrieval oracle that finds nothing. -/
theorem empty_retrieval_short_circuit_witness :
    turn chatOrEmpty "hi" = Except.ok (noResultsReply,
      [Event.embedCall ["hi"] TaskType.retrievalQuery]) ∧
    Event.generateCall "p" ∉ ([Event.embedCall ["hi"] TaskType.retrievalQuery] :
      List (Event Nat)) := by
  have h := empty_retrieval_short_circuit chatOrEmpty "hi" 0 [] rfl rfl
  exact ⟨h.1, h.2 "p"⟩

/-- C6.  Ordering preservation: the context block is the fixed header
followed by one block per retrieved match, in exactly the order the index
returned them, numbered from 1 (`matchBlock i` prints `Result i+1`), with
no omission or insertion; and the prompt handed to the generative provider
is built from exactly that block. -/
theorem context_ordering_preserved (m : RMatch) (ms : List RMatch) :
    formatContext (m :: ms) =
      contextHeader ++
        strConcat (((m :: ms).enum).map fun p => matchBlock p.1 p.2) ∧
    ∀ (V : Type) (or : ChatOracles V) (q : String) (v : V) (vs : List V),
      or.embed [q] TaskType.retrievalQuery = Except.ok (v :: vs) →
      or.query v = m :: ms →
      turn or q = Except.ok (generateResponse or.genRaw (promptFor q (m :: ms)),
        [Event.embedCall [q] TaskType.retrievalQuery,
         Event.generateCall (promptFor q (m :: ms))]) := by
  constructor
  · simpa [List.enum] using formatContextAux_eq (m :: ms) 0 contextHeader
  · intro V or q v vs hemb hq
    unfold turn
    rw [hemb]
    dsimp only
    rw [hq]

/-- Witness for C6 on a concrete two-match retrieval. -/
theorem context_ordering_preserved_witness :
    formatContext [demoMatch, demoMatch2] =
      contextHeader ++
        strConcat ((([demoMatch, demoMatch2] : List RMatch).enum).map
          fun p => matchBlock p.1 p.2) ∧
    turn chatOrGen "mystery" =
      Except.ok (generateResponse chatOrGen.genRaw
          (promptFor "mystery" [demoMatch, demoMatch2]),
        [Event.embedCall ["mystery"] TaskType.retrievalQuery,
         Event.generateCall (promptFor "mystery" [demoMatch, demoMatch2])]) := by
  have h := context_ordering_preserved demoMatch [demoMatch2]
  exact ⟨h.1, h.2 Nat chatOrGen "mystery" 0 [] rfl rfl⟩

/-- C7 counterexample: three valid rows plus one row missing `authors`,
with the row limit exactly 3 (hence at least 3): the loader returns 3
records, not the 2 the claim states. -/
theorem load_scenario_cex :
    (loadData scenarioRows 3).length = 3 ∧
    ¬ ((loadData scenarioRows 3).length = 2) := by
  constructor <;> decide

/-- C7 as amended: for a corpus of 3 valid rows plus 1 row missing
`authors` and a row limit of at least 3, `load()` returns exactly the 3
records of the valid rows, the malformed row dropped silently; in general
rows missing a required column are dropped and the remainder is truncated
to the row limit. -/
theorem load_drop_truncate (r1 r2 r3 bad : Row) (limit : Nat)
    (h1 : isValidRow r1 = true) (h2 : isValidRow r2 = true)
    (h3 : isValidRow r3 = true) (hbad : bad.authors = none)
    (hlim : 3 ≤ limit) :
    loadData [r1, r2, r3, bad] limit = [mkRecord r1, mkRecord r2, mkRecord r3] ∧
    (loadData [r1, r2, r3, bad] limit).length = 3 ∧
    ∀ (rows : List Row) (lim : Nat),
      (loadData rows lim).length = min lim ((rows.filter isValidRow).length) := by
  have hb : isValidRow bad = false := by
    simp [isValidRow, hbad]
  have hfil : ([r1, r2, r3, bad].filter isValidRow) = [r1, r2, r3] := by
    simp [List.filter, h1, h2, h3, hb]
  have htake : ([r1, r2, r3] : List Row).take limit = [r1, r2, r3] :=
    List.take_of_length_le (by simpa using hlim)
  refine ⟨?_, ?_, ?_⟩
  · simp [loadData, hfil, htake]
  · simp [loadData, hfil, htake]
  · intro rows lim
    simp [loadData, List.length_take]

/-- Witness for the amended C7 at the concrete scenario corpus. -/
theorem load_drop_truncate_witness :
    loadData [rowA, rowB, rowC, rowBad] 3 =
      [mkRecord rowA, mkRecord rowB, mkRecord rowC] ∧
    (loadData [rowA, rowB, rowC, rowBad] 3).length = 3 ∧
    (loadData [rowBad] 5).length = min 5 (([rowBad].filter isValidRow).length) := by
  have h := load_drop_truncate rowA rowB rowC rowBad 3
    (by decide) (by decide) (by decide) (by decide) (by decide)
  exact ⟨h.1, h.2.1, h.2.2 [rowBad] 5⟩

/-- C8.  Generation-failure fallback: when the generative provider raises
on the turn's prompt, the turn still succeeds (no exception escapes the
generation call), its reply is the fallback text embedding the error, and
the session goes on to process the remaining inputs. -/
theorem generation_failure_fallback (or : ChatOracles V) (q : String)
    (qs : List String) (v : V) (vs : List V) (m : RMatch) (ms : List RMatch)
    (e : String) (rest : SessionOut V)
    (hterm : isTermination q = false)
    (hemb : or.embed [q] TaskType.retrievalQuery = Except.ok (v :: vs))
    (hq : or.query v = m :: ms)
    (hgen : or.genRaw (promptFor q (m :: ms)) = Except.error e)
    (hrest : session or qs = Except.ok rest) :
    turn or q = Except.ok (fallbackReply e,
      [Event.embedCall [q] TaskType.retrievalQuery,
       Event.generateCall (promptFor q (m :: ms))]) ∧
    session or (q :: qs) = Except.ok ⟨fallbackReply e :: rest.replies,
      [Event.embedCall [q] TaskType.retrievalQuery,
       Event.generateCall (promptFor q (m :: ms))] ++ rest.events,
      rest.ended⟩ := by
  have ht : turn or q = Except.ok (fallbackReply e,
      [Event.embedCall [q] TaskType.retrievalQuery,
       Event.generateCall (promptFor q (m :: ms))]) := by
    unfold turn
    rw [hemb]
    dsimp only
    rw [hq]
    dsimp only
    unfold generateResponse
    rw [hgen]
  refine ⟨ht, ?_⟩
  simp only [session, hterm]
  rw [ht]
  dsimp only
  rw [hrest]
  rfl

/-- Witness for C8: the generative oracle always raises, the session
continues (and here ends because no further input is pending). -/
theorem generation_failure_fallback_witness :
    turn chatOrGen "hi" = Except.ok (fallbackReply "boom",
      [Event.embedCall ["hi"] TaskType.retrievalQuery,
       Event.generateCall (promptFor "hi" [demoMatch, demoMatch2])]) ∧
    session chatOrGen ["hi"] = Except.ok ⟨fallbackReply "boom" :: [],
      [Event.embedCall ["hi"] TaskType.retrievalQuery,
       Event.generateCall (promptFor "hi" [demoMatch, demoMatch2])] ++ [],
      false⟩ := by
  have h := generation_failure_fallback chatOrGen "hi" [] 0 [] demoMatch
    [demoMatch2] "boom" ⟨[], [], false⟩ (by decide) rfl rfl rfl rfl
  exact ⟨h.1, h.2⟩

/-- C9.  Session termination: the loop reaches the ended state with the
goodbye reply and an empty trace (no embed or generate call for that
input) exactly when the lower-cased input is `quit` or `exit`; for every
other input the loop runs the turn and then continues with the remaining
inputs. -/
theorem session_termination (or : ChatOracles V) (q : String)
    (qs : List String) :
    (isTermination q = true ↔
      session or (q :: qs) = Except.ok ⟨[goodbyeReply], [], true⟩) ∧
    (isTermination q = true → (lower q = "quit" ∨ lower q = "exit")) ∧
    ((lower q = "quit" ∨ lower q = "exit") → isTermination q = true) ∧
    (isTermination q = false →
      ∀ (t : String × List (Event V)) (rest : SessionOut V),
        turn or q = Except.ok t → session or qs = Except.ok rest →
        session or (q :: qs) =
          Except.ok ⟨t.1 :: rest.replies, t.2 ++ rest.events, rest.ended⟩) := by
  refine ⟨⟨?_, ?_⟩, ?_, ?_, ?_⟩
  · intro hterm
    simp only [session, hterm]
    rfl
  · intro hend
    by_contra hterm
    have hterm2 : isTermination q = false := by
      cases hq : isTermination q
      · rfl
      · exact absurd hq hterm
    simp only [session, hterm2] at hend
    cases hturn : turn or q with
    | error e => rw [hturn] at hend; cases hend
    | ok t =>
      rw [hturn] at hend
      dsimp only at hend
      cases hrest : session or qs with
      | error e => rw [hrest] at hend; cases hend
      | ok rest =>
        rw [hrest] at hend
        dsimp only at hend
        obtain ⟨tail, htail⟩ := turn_ok_shape or q t hturn
        have hev : t.2 ++ rest.events = [] := congrArg SessionOut.events
          (Except.ok.inj hend)
        rw [htail] at hev
        cases hev
  · intro hterm
    unfold isTermination at hterm
    rcases Bool.or_eq_true_iff.mp hterm with h | h
    · exact Or.inl (eq_of_beq h)
    · exact Or.inr (eq_of_beq h)
  · intro h
    unfold isTermination
    cases h with
    | inl h => simp [h]
    | inr h => simp [h]
  · intro hterm t rest hturn hrest
    simp only [session, hterm]
    rw [hturn]
    dsimp only
    rw [hrest]
    rfl

/-- Witness for C9: a mixed-case termination token ends the session with
no provider call, and a normal input runs the turn and continues. -/
theorem session_termination_witness :
    session chatOrGen ["QuIt", "x"] = Except.ok ⟨[goodbyeReply], [], true⟩ ∧
    (lower "ExIt" = "quit" ∨ lower "ExIt" = "exit") ∧
    session chatOrGen ["hi", "QuIt"] = Except.ok
      ⟨fallbackReply "boom" :: [goodbyeReply],
       [Event.embedCall ["hi"] TaskType.retrievalQuery,
        Event.generateCall (promptFor "hi" [demoMatch, demoMatch2])] ++ [],
       true⟩ := by
  have h1 := (session_termination chatOrGen "QuIt" ["x"]).1.mp (by decide)
  have h2 := (session_termination chatOrGen "ExIt" ([] : List String)).2.1 (by decide)
  have h3 := (session_termination chatOrGen "hi" ["QuIt"]).2.2.2 (by decide)
    (fallbackReply "boom",
     [Event.embedCall ["hi"] TaskType.retrievalQuery,
      Event.generateCall (promptFor "hi" [demoMatch, demoMatch2])])
    ⟨[goodbyeReply], [], true⟩ rfl
    ((session_termination chatOrGen "QuIt" ([] : List String)).1.mp (by decide))
  exact ⟨h1, h2, h3⟩

/-- C10.  Startup sequencing: on every startup the corpus is loaded before
the marker is ever consulted — a missing corpus file exits fatally with no
marker check at all — and when the corpus is readable the index is
provisioned before the marker check; when the marker exists, ingestion is
skipped with zero provider calls, yet the index was still provisioned. -/
theorem startup_sequencing (env : StartupEnv V σ) :
    (env.corpus = none →
      startup env = ([StartupStep.corpusLoad, StartupStep.fatalExit], none) ∧
      StartupStep.markerCheck ∉ (startup env).1) ∧
    (∀ (rows : List Row), env.corpus = some rows →
      startup env = ([StartupStep.corpusLoad, StartupStep.indexProvision,
          StartupStep.markerCheck, StartupStep.ingestion env.marker],
        some (setup env.ingest env.marker env.index0
          (loadData rows rowsToProcess))) ∧
      (env.marker = true →
        (startup env).2 = some (Except.ok ⟨env.index0, true, []⟩) ∧
        StartupStep.indexProvision ∈ (startup env).1)) := by
  constructor
  · intro hc
    have hs : startup env = ([StartupStep.corpusLoad, StartupStep.fatalExit], none) := by
      simp only [startup, hc]
    exact ⟨hs, by rw [hs]; simp⟩
  · intro rows hc
    have hs : startup env = ([StartupStep.corpusLoad, StartupStep.indexProvision,
        StartupStep.markerCheck, StartupStep.ingestion env.marker],
      some (setup env.ingest env.marker env.index0
        (loadData rows rowsToProcess))) := by
      simp only [startup, hc]
    refine ⟨hs, ?_⟩
    intro hm
    rw [hs, hm]
    exact ⟨rfl, by simp⟩

/-- Witness for C10 on a missing-corpus environment and on a ready
environment whose marker is already set. -/
theorem startup_sequencing_witness :
    startup envMissing = ([StartupStep.corpusLoad, StartupStep.fatalExit], none) ∧
    StartupStep.markerCheck ∉ (startup envMissing).1 ∧
    startup envReady = ([StartupStep.corpusLoad, StartupStep.indexProvision,
        StartupStep.markerCheck, StartupStep.ingestion true],
      some (setup demoOr true [] (loadData scenarioRows rowsToProcess))) ∧
    (startup envReady).2 = some (Except.ok ⟨[], true, []⟩) ∧
    StartupStep.indexProvision ∈ (startup envReady).1 := by
  have h1 := (startup_sequencing envMissing).1 rfl
  have h2 := (startup_sequencing envReady).2 scenarioRows rfl
  exact ⟨h1.1, h1.2, h2.1, (h2.2 rfl).1, (h2.2 rfl).2⟩

end BookChatbot
